import Mathlib

/-!
Shallow embedding of the TPC cluster-mover and MVTX sensor-geometry code
of the sPHENIX `coresoftware` repository, together with theorems checking
the natural-language specification against it.

Conventions of the embedding:
* C++ `double` arithmetic is modelled by exact rational arithmetic (`ℚ`);
  `std::sqrt` and `std::atan2` are external library functions, passed as
  explicit function parameters so that every definition stays computable.
* Fallible C++ code that signals failure through NaN or status codes is
  modelled with `Option`.
* `TrackFitUtils` (circle fit, line fit, circle-circle intersection) is not
  part of the provided sources; the fits are abstracted as parameters and
  the intersection is modelled from the specification (see its doc comment).
-/

/-- A 3D point, standing for `Acts::Vector3` (components `[0]`, `[1]`, `[2]`). -/
structure V3 where
  x : ℚ
  y : ℚ
  z : ℚ
deriving DecidableEq, Repr

instance : Inhabited V3 := ⟨⟨0, 0, 0⟩⟩

namespace TrkrDefs

/-- Modelled from the spec: `TrkrDefs` (cluster-key bit layout) is not under
`src/`. A cluster key is a 64-bit word whose top byte is the detector
(tracker) id and whose next byte is the layer; the spec treats these as the
hit's `detector_region` tag and `layer_id`. -/
def getTrkrId (ckey : ℕ) : ℕ := ckey / 2 ^ 56 % 2 ^ 8

/-- Modelled from the spec: layer byte of the 64-bit cluster key. -/
def getLayer (ckey : ℕ) : ℕ := ckey / 2 ^ 48 % 2 ^ 8

/-- Modelled from the spec: the detector id tagging RADIAL_SEGMENTED (TPC) hits. -/
def tpcId : ℕ := 2

end TrkrDefs

namespace TpcClusterMover

/-- Boundary radius constant `inner_tpc_min_radius = 30.0` (cm), from `TpcClusterMover.h`. -/
def inner_tpc_min_radius : ℚ := 30

/-- Boundary radius constant `mid_tpc_min_radius = 40.0` (cm). -/
def mid_tpc_min_radius : ℚ := 40

/-- Boundary radius constant `outer_tpc_min_radius = 60.0` (cm). -/
def outer_tpc_min_radius : ℚ := 60

/-- Boundary radius constant `outer_tpc_max_radius = 76.4` (cm). -/
def outer_tpc_max_radius : ℚ := 764 / 10

/-- Constructor initializer `inner_tpc_spacing = (mid_tpc_min_radius - inner_tpc_min_radius) / 16.0`. -/
def inner_tpc_spacing : ℚ := (mid_tpc_min_radius - inner_tpc_min_radius) / 16

/-- Constructor initializer `mid_tpc_spacing = (outer_tpc_min_radius - mid_tpc_min_radius) / 16.0`. -/
def mid_tpc_spacing : ℚ := (outer_tpc_min_radius - mid_tpc_min_radius) / 16

/-- Constructor initializer `outer_tpc_spacing = (outer_tpc_max_radius - outer_tpc_min_radius) / 16.0`. -/
def outer_tpc_spacing : ℚ := (outer_tpc_max_radius - outer_tpc_min_radius) / 16

/-- The `layer_radius[48]` table as filled by the three loops of the
`TpcClusterMover` default constructor: entries `0..15` for the inner region,
`16..31` for the middle region, `32..47` for the outer region, each entry the
midpoint of its region bin. -/
def layer_radius : List ℚ :=
  ((List.range 16).map fun (i : ℕ) =>
    inner_tpc_min_radius + (i : ℚ) * inner_tpc_spacing + (1 / 2) * inner_tpc_spacing) ++
  ((List.range 16).map fun (i : ℕ) =>
    mid_tpc_min_radius + (i : ℚ) * mid_tpc_spacing + (1 / 2) * mid_tpc_spacing) ++
  ((List.range 16).map fun (i : ℕ) =>
    outer_tpc_min_radius + (i : ℚ) * outer_tpc_spacing + (1 / 2) * outer_tpc_spacing)

/-- Modelled from the spec: `TrackFitUtils::circle_circle_intersection` is not
under `src/`. Computes the two algebraic intersections of the circle of radius
`target_radius` centered at the origin with the fitted circle of radius `R`
centered at `(X0, Y0)`: `none` when the discriminant is negative or the
configuration is degenerate (concentric centers), otherwise
`some (xplus, yplus, xminus, yminus)`. `sqrt` is the external library square
root. -/
def circle_circle_intersection (sqrt : ℚ → ℚ) (target_radius R X0 Y0 : ℚ) :
    Option (ℚ × ℚ × ℚ × ℚ) :=
  let d2 := X0 ^ 2 + Y0 ^ 2
  let F := (target_radius ^ 2 - R ^ 2 + d2) / 2
  let disc := target_radius ^ 2 * d2 - F ^ 2
  if d2 = 0 ∨ disc < 0 then none
  else
    let s := sqrt disc
    some ((X0 * F + Y0 * s) / d2, (Y0 * F - X0 * s) / d2,
          (X0 * F - Y0 * s) / d2, (Y0 * F + X0 * s) / d2)

/-- `TpcClusterMover::get_circle_circle_intersection`: intersects the fitted
circle with the cylinder of radius `target_radius`, then picks the candidate
lying within 5 cm (in both x and y) of the original cluster position
`(xclus, yclus)`, falling back to the minus solution. Failure of the
intersection computation (NaN in the source) is `none`. -/
def get_circle_circle_intersection (sqrt : ℚ → ℚ)
    (target_radius R X0 Y0 xclus yclus : ℚ) : Option (ℚ × ℚ) :=
  match circle_circle_intersection sqrt target_radius R X0 Y0 with
  | none => none
  | some (xplus, yplus, xminus, yminus) =>
    if |xclus - xplus| < 5 ∧ |yclus - yplus| < 5 then
      some (xplus, yplus)
    else
      some (xminus, yminus)

/-- The body of the per-cluster loop of `TpcClusterMover::processTrack` for one
TPC cluster: project to the readout-layer radius and to the cluster's own
radius, and emit the shifted position; `none` when either intersection fails
(the `continue` branches of the source). `R X0 Y0` are the fitted circle,
`A B` the fitted line `z = A·r + B`. -/
def moveCluster (sqrt : ℚ → ℚ) (R X0 Y0 A B : ℚ) (p : ℕ × V3) : Option (ℕ × V3) :=
  let layer := TrkrDefs.getLayer p.1
  let g := p.2
  let target_radius := layer_radius.getD (layer - 7) 0
  match get_circle_circle_intersection sqrt target_radius R X0 Y0 g.x g.y with
  | none => none
  | some (x_proj, y_proj) =>
    let z_proj := B + A * target_radius
    let cluster_radius := sqrt (g.x ^ 2 + g.y ^ 2)
    match get_circle_circle_intersection sqrt cluster_radius R X0 Y0 g.x g.y with
    | none => none
    | some (x_start, y_start) =>
      let z_start := B + A * cluster_radius
      some (p.1, ⟨g.x - (x_start - x_proj), g.y - (y_start - y_proj),
                  g.z - (z_start - z_proj)⟩)

/-- The list of TPC clusters that `processTrack` extracts from its input, in
input order (the `tpc_cluskey_vec` / `tpc_global_vec` pair of the source's
first loop). -/
def tpcClusters (global_in : List (ℕ × V3)) : List (ℕ × V3) :=
  global_in.filter fun p => TrkrDefs.getTrkrId p.1 = TrkrDefs.tpcId

/-- The non-TPC ("si") clusters that the first loop of `processTrack` copies
unchanged into `global_moved`, in input order. -/
def siClusters (global_in : List (ℕ × V3)) : List (ℕ × V3) :=
  global_in.filter fun p => ¬ TrkrDefs.getTrkrId p.1 = TrkrDefs.tpcId

/-- `TpcClusterMover::processTrack`: splits the input into TPC and non-TPC
clusters (non-TPC clusters go to the output unchanged, in input order), returns
the input unchanged when fewer than 3 TPC clusters are present, and otherwise
fits a circle and a line to the TPC positions (`circle_fit_by_taubin` and
`line_fit` of the absent `TrackFitUtils`, abstracted as the parameters `fitC`
and `fitL`) and appends each successfully projected TPC cluster. -/
def processTrack (fitC : List V3 → ℚ × ℚ × ℚ) (fitL : List V3 → ℚ × ℚ)
    (sqrt : ℚ → ℚ) (global_in : List (ℕ × V3)) : List (ℕ × V3) :=
  let tpc := tpcClusters global_in
  let global_moved := siClusters global_in
  if tpc.length < 3 then global_in
  else
    let cfit := fitC (tpc.map Prod.snd)
    let lfit := fitL (tpc.map Prod.snd)
    global_moved ++
      tpc.filterMap (moveCluster sqrt cfit.1 cfit.2.1 cfit.2.2 lfit.1 lfit.2)

end TpcClusterMover

/-- The constructor-set fields of `CylinderGeom_Mvtx` that the modelled methods
read (`stave_phi_step` and `stave_phi_0`; the remaining constructor parameters
are carried along unused). -/
structure CylinderGeom_Mvtx where
  layer : ℤ
  N_staves : ℤ
  layer_radius : ℚ
  stave_phi_step : ℚ
  stave_phi_tilt : ℚ
  stave_phi_0 : ℚ
deriving DecidableEq, Repr

namespace CylinderGeom_Mvtx

/-- The constant `loc_sensor_in_chip_data = {0.058128, -0.0005, 0.0}` written
into `loc_sensor_in_chip` by the `CylinderGeom_Mvtx` constructor. -/
def loc_sensor_in_chip : V3 := ⟨0.058128, -0.0005, 0⟩

/-- The constant 9-entry table `inner_loc_chip_in_module_data` written into
`inner_loc_chip_in_module` by the `CylinderGeom_Mvtx` constructor. -/
def inner_loc_chip_in_module : List V3 :=
  [⟨0.0275, -0.02075, -12.060⟩,
   ⟨0.0275, -0.02075, -9.0450⟩,
   ⟨0.0275, -0.02075, -6.0300⟩,
   ⟨0.0275, -0.02075, -3.0150⟩,
   ⟨0.0275, -0.02075, 0⟩,
   ⟨0.0275, -0.02075, 3.0150⟩,
   ⟨0.0275, -0.02075, 6.0300⟩,
   ⟨0.0275, -0.02075, 9.0450⟩,
   ⟨0.0275, -0.02075, 12.060⟩]

/-- The C library `round`: nearest integer, halves away from zero; the result
of `std::round` applied to an exact value. -/
def cppRound (q : ℚ) : ℤ := if q < 0 then -⌊-q + 1 / 2⌋ else ⌊q + 1 / 2⌋

/-- The C++ conversion of a (mathematical) signed integer to `unsigned int`:
reduction modulo `2^32`. -/
def toUnsigned (i : ℤ) : ℕ := (i % 2 ^ 32).toNat

/-- `CylinderGeom_Mvtx::get_sensor_indices_from_world_coords`: stave index from
the azimuth of the world point (normalized into `[0, 2π)` by adding `2π` when
`atan2` is negative), chip index from its z position; both are computed with
`round` into C `int`s and then stored into the `unsigned int` output
parameters. `atan2` is the external library arctangent and `M_PI` the library
constant π, both passed in so the definition stays exact and computable. -/
def get_sensor_indices_from_world_coords (atan2 : ℚ → ℚ → ℚ) (M_PI : ℚ)
    (g : CylinderGeom_Mvtx) (world : V3) : ℕ × ℕ :=
  let phi0 := atan2 world.y world.x
  let phi := if phi0 < 0 then phi0 + 2 * M_PI else phi0
  let stave_tmp : ℤ := cppRound ((phi - g.stave_phi_0) / g.stave_phi_step)
  let chip_delta_z :=
    ((inner_loc_chip_in_module.getD 8 default).z -
     (inner_loc_chip_in_module.getD 0 default).z) / 8
  let chip_tmp : ℤ := cppRound (world.z / chip_delta_z) + 4
  (toUnsigned stave_tmp, toUnsigned chip_tmp)

/-- Modelled from the spec: `SegmentationAlpide.h` (the active-matrix size
constants and the fixed detector-to-pixel conversion `localToDetector`) is not
under `src/`; the spec describes it as "the fixed detector-to-pixel conversion"
validating against the physically defined active matrix, so it is abstracted
as this record of the two active-matrix sizes and the conversion function
(`none` standing for the `false` return of `localToDetector`). -/
structure SegmentationAlpideModel where
  ActiveMatrixSizeRows : ℚ
  ActiveMatrixSizeCols : ℚ
  localToDetector : ℚ → ℚ → Option (ℤ × ℤ)

/-- The edge-snap tolerance `EPS = 5e-6` cm of
`CylinderGeom_Mvtx::get_pixel_from_local_coords`. -/
def EPS : ℚ := 5e-6

/-- `CylinderGeom_Mvtx::get_pixel_from_local_coords` (the `bool` overload):
snaps each of the x and z sensor-local coordinates lying within `EPS` of the
active-matrix half-size to the half-size minus `EPS` (keeping its sign),
translates by `loc_sensor_in_chip` into chip-local coordinates, and delegates
to `SegmentationAlpide::localToDetector`. -/
def get_pixel_from_local_coords (seg : SegmentationAlpideModel)
    (sensor_local : V3) : Option (ℤ × ℤ) :=
  let xs := if |(|sensor_local.x| - seg.ActiveMatrixSizeRows / 2)| < EPS
    then (if sensor_local.x < 0 then -1 else 1) * (seg.ActiveMatrixSizeRows / 2 - EPS)
    else sensor_local.x
  let zs := if |(|sensor_local.z| - seg.ActiveMatrixSizeCols / 2)| < EPS
    then (if sensor_local.z < 0 then -1 else 1) * (seg.ActiveMatrixSizeCols / 2 - EPS)
    else sensor_local.z
  seg.localToDetector (xs + loc_sensor_in_chip.x) (zs + loc_sensor_in_chip.z)

/-- `CylinderGeom_Mvtx::get_pixel_number_from_xbin_zbin`: linear pixel index
`xbin + zbin * NX`, where `NX = get_NX() = SegmentationAlpide::NRows` is
passed explicitly (the constant is not under `src/`). -/
def get_pixel_number_from_xbin_zbin (NX xbin zbin : ℤ) : ℤ := xbin + zbin * NX

/-- `CylinderGeom_Mvtx::get_pixel_X_from_pixel_number`: `NXZ % get_NX()` with
C++ truncated remainder. -/
def get_pixel_X_from_pixel_number (NX NXZ : ℤ) : ℤ := NXZ.tmod NX

/-- `CylinderGeom_Mvtx::get_pixel_Z_from_pixel_number`: `NXZ / get_NX()` with
C++ truncated division. -/
def get_pixel_Z_from_pixel_number (NX NXZ : ℤ) : ℤ := NXZ.tdiv NX

end CylinderGeom_Mvtx

/-- A trivial circle fit used to instantiate witness theorems. -/
def fitC0 : List V3 → ℚ × ℚ × ℚ := fun _ => (0, 0, 0)

/-- A trivial line fit used to instantiate witness theorems. -/
def fitL0 : List V3 → ℚ × ℚ := fun _ => (0, 0)

/-- A trivial square-root model used to instantiate witness theorems. -/
def sqrt0 : ℚ → ℚ := fun _ => 0

/-- A constant square-root model used to instantiate witness theorems on
inputs whose relevant radicands are tuned to have square root 30. -/
def sqrt30 : ℚ → ℚ := fun _ => 30

/-- A cluster key with tracker id `tpcId` and layer byte `l`. -/
def tpcKey (l : ℕ) : ℕ := TrkrDefs.tpcId * 2 ^ 56 + l * 2 ^ 48

/-- The circle fit used by the C2 witness. -/
def fitC30 : List V3 → ℚ × ℚ × ℚ := fun _ => (30, 30, 0)

/-- The line fit used by the C2 witness. -/
def fitL12 : List V3 → ℚ × ℚ := fun _ => (1, 2)

/-- The circle fit used by the C4 witness: a small fitted circle that cannot
reach the readout layer radius. -/
def fitC1 : List V3 → ℚ × ℚ × ℚ := fun _ => (1, 1, 0)

/-- A constant arctangent model returning a positive angle, for the C7 witness. -/
def atan2pos : ℚ → ℚ → ℚ := fun _ _ => 1

/-- A constant arctangent model returning a negative angle, for the C10 witness. -/
def atan2neg : ℚ → ℚ → ℚ := fun _ _ => -1

/-- A concrete MVTX layer geometry for the C7 witness. -/
def g0 : CylinderGeom_Mvtx := ⟨0, 48, 24, 1 / 2, 0, 0⟩

/-- A concrete MVTX layer geometry for the C10 witness. -/
def g10 : CylinderGeom_Mvtx := ⟨0, 48, 24, 10, 0, 10⟩

/-- A concrete segmentation model for the C8 witness. -/
def seg0 : CylinderGeom_Mvtx.SegmentationAlpideModel :=
  ⟨1.2, 2, fun a b => some (⌊a * 10000⌋, ⌊b * 10000⌋)⟩

/-- C1: for every input list of (cluster key, position) pairs containing fewer
than 3 TPC clusters, `processTrack` returns the original input list unchanged —
structurally identical, same order, same keys and positions, including all
non-TPC clusters — for any circle fit, line fit and square root. -/
theorem C1_processTrack_passthrough_few_tpc
    (fitC : List V3 → ℚ × ℚ × ℚ) (fitL : List V3 → ℚ × ℚ) (sqrt : ℚ → ℚ)
    (global_in : List (ℕ × V3))
    (h : (TpcClusterMover.tpcClusters global_in).length < 3) :
    TpcClusterMover.processTrack fitC fitL sqrt global_in = global_in := by
  unfold TpcClusterMover.processTrack
  simp only [if_pos h]

/-- Witness for C1 on a concrete two-cluster input (one TPC cluster). -/
theorem C1_witness :
    TpcClusterMover.processTrack fitC0 fitL0 sqrt0
        [(0, ⟨1, 2, 3⟩), (tpcKey 7, ⟨4, 5, 6⟩)] =
      [(0, ⟨1, 2, 3⟩), (tpcKey 7, ⟨4, 5, 6⟩)] :=
  C1_processTrack_passthrough_few_tpc fitC0 fitL0 sqrt0 _ (by decide)

/-- C3: whenever the circle-circle intersection succeeds with candidates
`(xp, yp)` and `(xm, ym)`, `get_circle_circle_intersection` selects the plus
candidate exactly when both `|xclus - xp| < 5` and `|yclus - yp| < 5`, and the
minus candidate otherwise (in particular when neither candidate is within the
5 cm tolerance). -/
theorem C3_intersection_selection (sqrt : ℚ → ℚ)
    (r0 R X0 Y0 xclus yclus xp yp xm ym : ℚ)
    (h : TpcClusterMover.circle_circle_intersection sqrt r0 R X0 Y0 =
      some (xp, yp, xm, ym)) :
    TpcClusterMover.get_circle_circle_intersection sqrt r0 R X0 Y0 xclus yclus =
      some (if |xclus - xp| < 5 ∧ |yclus - yp| < 5 then (xp, yp) else (xm, ym)) := by
  unfold TpcClusterMover.get_circle_circle_intersection
  rw [h, apply_ite some]

/-- Witness for C3 on a concrete successful intersection where the plus
candidate is within tolerance. -/
theorem C3_witness :
    TpcClusterMover.get_circle_circle_intersection sqrt30 30 30 30 0 15 0 =
      some (15, -1) := by
  rw [C3_intersection_selection sqrt30 30 30 30 0 15 0 15 (-1) 15 1
    (by norm_num [TpcClusterMover.circle_circle_intersection, sqrt30])]
  norm_num

/-- C5: every non-TPC cluster of the input appears unchanged (same key, same
position) in the output of `processTrack`, for any fits, any square root and
any number of TPC clusters. -/
theorem C5_non_tpc_preserved
    (fitC : List V3 → ℚ × ℚ × ℚ) (fitL : List V3 → ℚ × ℚ) (sqrt : ℚ → ℚ)
    (global_in : List (ℕ × V3)) (p : ℕ × V3)
    (hmem : p ∈ global_in)
    (hnot : TrkrDefs.getTrkrId p.1 ≠ TrkrDefs.tpcId) :
    p ∈ TpcClusterMover.processTrack fitC fitL sqrt global_in := by
  unfold TpcClusterMover.processTrack
  by_cases h : (TpcClusterMover.tpcClusters global_in).length < 3
  · rw [if_pos h]
    exact hmem
  · rw [if_neg h]
    refine List.mem_append_left _ ?_
    unfold TpcClusterMover.siClusters
    exact List.mem_filter.mpr ⟨hmem, by simp [hnot]⟩

/-- Witness for C5: the non-TPC cluster of a concrete four-cluster track is in
the output. -/
theorem C5_witness :
    ((5 : ℕ), (⟨1, 2, 3⟩ : V3)) ∈ TpcClusterMover.processTrack fitC0 fitL0 sqrt0
      [(tpcKey 7, ⟨4, 5, 6⟩), (5, ⟨1, 2, 3⟩), (tpcKey 8, ⟨7, 8, 9⟩),
       (tpcKey 9, ⟨1, 1, 1⟩)] :=
  C5_non_tpc_preserved fitC0 fitL0 sqrt0 _ _ (by decide) (by decide)

lemma inner_len :
    ((List.range 16).map fun (i : ℕ) =>
      TpcClusterMover.inner_tpc_min_radius + (i : ℚ) * TpcClusterMover.inner_tpc_spacing +
        (1 / 2) * TpcClusterMover.inner_tpc_spacing).length = 16 := by
  rw [List.length_map, List.length_range]

lemma mid_len :
    ((List.range 16).map fun (i : ℕ) =>
      TpcClusterMover.mid_tpc_min_radius + (i : ℚ) * TpcClusterMover.mid_tpc_spacing +
        (1 / 2) * TpcClusterMover.mid_tpc_spacing).length = 16 := by
  rw [List.length_map, List.length_range]

lemma outer_len :
    ((List.range 16).map fun (i : ℕ) =>
      TpcClusterMover.outer_tpc_min_radius + (i : ℚ) * TpcClusterMover.outer_tpc_spacing +
        (1 / 2) * TpcClusterMover.outer_tpc_spacing).length = 16 := by
  rw [List.length_map, List.length_range]

lemma layer_radius_len : TpcClusterMover.layer_radius.length = 48 := by
  unfold TpcClusterMover.layer_radius
  rw [List.length_append, List.length_append, inner_len, mid_len, outer_len]

lemma layer_radius_inner (i : ℕ) (h : i < 16) :
    TpcClusterMover.layer_radius.getD i 0 =
      30 + (i : ℚ) * ((40 - 30) / 16) + (0.5 : ℚ) * ((40 - 30) / 16) := by
  unfold TpcClusterMover.layer_radius
  rw [List.getD_eq_getElem _ _ (by
    rw [List.length_append, List.length_append, inner_len, mid_len, outer_len]; omega)]
  rw [List.getElem_append_left (by rw [List.length_append, inner_len, mid_len]; omega)]
  rw [List.getElem_append_left (inner_len ▸ h)]
  rw [List.getElem_map, List.getElem_range]
  norm_num [TpcClusterMover.inner_tpc_min_radius, TpcClusterMover.inner_tpc_spacing,
    TpcClusterMover.mid_tpc_min_radius]

lemma layer_radius_mid (i : ℕ) (h : i < 16) :
    TpcClusterMover.layer_radius.getD (16 + i) 0 =
      40 + (i : ℚ) * ((60 - 40) / 16) + (0.5 : ℚ) * ((60 - 40) / 16) := by
  unfold TpcClusterMover.layer_radius
  rw [List.getD_eq_getElem _ _ (by
    rw [List.length_append, List.length_append, inner_len, mid_len, outer_len]; omega)]
  rw [List.getElem_append_left (by rw [List.length_append, inner_len, mid_len]; omega)]
  rw [List.getElem_append_right (by rw [inner_len]; omega)]
  simp only [inner_len, Nat.add_sub_cancel_left]
  rw [List.getElem_map, List.getElem_range]
  norm_num [TpcClusterMover.mid_tpc_min_radius, TpcClusterMover.mid_tpc_spacing,
    TpcClusterMover.outer_tpc_min_radius]

lemma layer_radius_outer (i : ℕ) (h : i < 16) :
    TpcClusterMover.layer_radius.getD (32 + i) 0 =
      60 + (i : ℚ) * (((76.4 : ℚ) - 60) / 16) + (0.5 : ℚ) * (((76.4 : ℚ) - 60) / 16) := by
  unfold TpcClusterMover.layer_radius
  rw [List.getD_eq_getElem _ _ (by
    rw [List.length_append, List.length_append, inner_len, mid_len, outer_len]; omega)]
  rw [List.getElem_append_right (by rw [List.length_append, inner_len, mid_len]; omega)]
  simp only [List.length_append, inner_len, mid_len]
  have h32 : 32 + i - (16 + 16) = i := by omega
  simp only [h32]
  rw [List.getElem_map, List.getElem_range]
  norm_num [TpcClusterMover.outer_tpc_min_radius, TpcClusterMover.outer_tpc_spacing,
    TpcClusterMover.outer_tpc_max_radius]

lemma chain'_of_getD_mono (l : List ℚ)
    (h : ∀ i, i + 1 < l.length → l.getD i 0 ≤ l.getD (i + 1) 0) :
    l.Chain' (· ≤ ·) := by
  rw [List.chain'_iff_get]
  intro i hi
  have h2 : i + 1 < l.length := by omega
  have h1 : i < l.length := by omega
  have hle := h i h2
  rw [List.getD_eq_getElem _ _ h1, List.getD_eq_getElem _ _ h2] at hle
  simpa using hle

lemma layer_radius_getD_step (i : ℕ) (hi : i + 1 < 48) :
    TpcClusterMover.layer_radius.getD i 0 ≤ TpcClusterMover.layer_radius.getD (i + 1) 0 := by
  rcases lt_trichotomy i 15 with h15 | h15 | h15
  · rw [layer_radius_inner i (by omega), layer_radius_inner (i + 1) (by omega)]
    have : (i : ℚ) ≤ ((i + 1 : ℕ) : ℚ) := by push_cast; linarith
    nlinarith
  · subst h15
    rw [layer_radius_inner 15 (by omega), show (15 : ℕ) + 1 = 16 + 0 by rfl,
      layer_radius_mid 0 (by omega)]
    norm_num
  · rcases lt_trichotomy i 31 with h31 | h31 | h31
    · obtain ⟨j, rfl⟩ : ∃ j, i = 16 + j := ⟨i - 16, by omega⟩
      rw [layer_radius_mid j (by omega), show 16 + j + 1 = 16 + (j + 1) by omega,
        layer_radius_mid (j + 1) (by omega)]
      have : (j : ℚ) ≤ ((j + 1 : ℕ) : ℚ) := by push_cast; linarith
      nlinarith
    · subst h31
      rw [show (31 : ℕ) = 16 + 15 by rfl, layer_radius_mid 15 (by omega),
        show 16 + 15 + 1 = 32 + 0 by rfl, layer_radius_outer 0 (by omega)]
      norm_num
    · obtain ⟨j, rfl⟩ : ∃ j, i = 32 + j := ⟨i - 32, by omega⟩
      rw [layer_radius_outer j (by omega), show 32 + j + 1 = 32 + (j + 1) by omega,
        layer_radius_outer (j + 1) (by omega)]
      have : (j : ℚ) ≤ ((j + 1 : ℕ) : ℚ) := by push_cast; linarith
      nlinarith

lemma layer_radius_chain : TpcClusterMover.layer_radius.Chain' (· ≤ ·) :=
  chain'_of_getD_mono _ fun i hi =>
    layer_radius_getD_step i (by rw [layer_radius_len] at hi; omega)

/-- C6: after default construction, the layer radius table has exactly 48
entries in three contiguous 16-entry regions; entry i of each region is
region_min + i·spacing + 0.5·spacing with spacing = (region_max − region_min)/16
for boundary radii 30, 40, 60, 76.4; in particular entries 0 and 15 are the
midpoints of the first and last inner-region bins; and the 48 entries are
monotonically non-decreasing. -/
theorem C6_layer_radius_table :
    TpcClusterMover.layer_radius.length = 48 ∧
    (∀ i : Fin 16,
      TpcClusterMover.layer_radius.getD (i : ℕ) 0 =
        30 + (i : ℚ) * ((40 - 30) / 16) + (0.5 : ℚ) * ((40 - 30) / 16) ∧
      TpcClusterMover.layer_radius.getD (16 + (i : ℕ)) 0 =
        40 + (i : ℚ) * ((60 - 40) / 16) + (0.5 : ℚ) * ((60 - 40) / 16) ∧
      TpcClusterMover.layer_radius.getD (32 + (i : ℕ)) 0 =
        60 + (i : ℚ) * (((76.4 : ℚ) - 60) / 16) + (0.5 : ℚ) * (((76.4 : ℚ) - 60) / 16)) ∧
    TpcClusterMover.layer_radius.getD 0 0 = (30 + (30 + (40 - 30) / 16)) / 2 ∧
    TpcClusterMover.layer_radius.getD 15 0 = ((40 - (40 - 30) / 16) + 40) / 2 ∧
    TpcClusterMover.layer_radius.Chain' (· ≤ ·) := by
  refine ⟨layer_radius_len, ?_, ?_, ?_, layer_radius_chain⟩
  · intro i
    exact ⟨layer_radius_inner i i.isLt, layer_radius_mid i i.isLt,
      layer_radius_outer i i.isLt⟩
  · rw [layer_radius_inner 0 (by omega)]
    norm_num
  · rw [layer_radius_inner 15 (by omega)]
    norm_num

/-- C2: for a track with at least 3 TPC clusters and a TPC cluster whose two
circle-circle intersections (at the target layer radius and at the cluster's
own transverse radius) both succeed, the output contains the pair with the
same cluster key and position
(x − (x_start − x_proj), y − (y_start − y_proj), z − (z_start − z_proj)),
where z_start = B + A·r_cluster and z_proj = B + A·target_radius. -/
theorem C2_projected_cluster_position
    (fitC : List V3 → ℚ × ℚ × ℚ) (fitL : List V3 → ℚ × ℚ) (sqrt : ℚ → ℚ)
    (global_in : List (ℕ × V3)) (R X0 Y0 A B xp yp xs ys : ℚ) (p : ℕ × V3)
    (h3 : ¬ (TpcClusterMover.tpcClusters global_in).length < 3)
    (hmem : p ∈ TpcClusterMover.tpcClusters global_in)
    (hfc : fitC ((TpcClusterMover.tpcClusters global_in).map Prod.snd) = (R, X0, Y0))
    (hfl : fitL ((TpcClusterMover.tpcClusters global_in).map Prod.snd) = (A, B))
    (hproj : TpcClusterMover.get_circle_circle_intersection sqrt
      (TpcClusterMover.layer_radius.getD (TrkrDefs.getLayer p.1 - 7) 0)
      R X0 Y0 p.2.x p.2.y = some (xp, yp))
    (hstart : TpcClusterMover.get_circle_circle_intersection sqrt
      (sqrt (p.2.x ^ 2 + p.2.y ^ 2)) R X0 Y0 p.2.x p.2.y = some (xs, ys)) :
    (p.1, (⟨p.2.x - (xs - xp), p.2.y - (ys - yp),
      p.2.z - ((B + A * sqrt (p.2.x ^ 2 + p.2.y ^ 2)) -
        (B + A * TpcClusterMover.layer_radius.getD (TrkrDefs.getLayer p.1 - 7) 0))⟩ : V3))
      ∈ TpcClusterMover.processTrack fitC fitL sqrt global_in := by
  simp only [TpcClusterMover.processTrack]
  rw [if_neg h3, hfc, hfl]
  refine List.mem_append_right _ ?_
  refine List.mem_filterMap.mpr ⟨p, hmem, ?_⟩
  simp only [TpcClusterMover.moveCluster]
  rw [hproj]
  simp only []
  rw [hstart]

/-- Witness for C2: a concrete three-TPC-cluster track on which the first
cluster's two intersections succeed and the emitted position follows the
claimed formula. -/
theorem C2_witness :
    (tpcKey 7, (⟨47045 / 3072, 0, 165 / 16⟩ : V3)) ∈
      TpcClusterMover.processTrack fitC30 fitL12 sqrt30
        [(tpcKey 7, ⟨15, 0, 10⟩), (tpcKey 8, ⟨1, 2, 3⟩), (tpcKey 9, ⟨4, 5, 6⟩)] := by
  have e0 : TrkrDefs.getLayer (tpcKey 7) - 7 = 0 := by decide
  have e : TpcClusterMover.layer_radius.getD (TrkrDefs.getLayer (tpcKey 7) - 7) 0 =
      485 / 16 := by
    rw [e0, layer_radius_inner 0 (by omega)]
    norm_num
  have h := C2_projected_cluster_position fitC30 fitL12 sqrt30
    [(tpcKey 7, ⟨15, 0, 10⟩), (tpcKey 8, ⟨1, 2, 3⟩), (tpcKey 9, ⟨4, 5, 6⟩)]
    30 30 0 1 2 (47045 / 3072) (-1) 15 (-1) (tpcKey 7, ⟨15, 0, 10⟩)
    (by decide) (by decide) rfl rfl
    (by rw [e]
        norm_num [TpcClusterMover.get_circle_circle_intersection,
          TpcClusterMover.circle_circle_intersection, sqrt30, abs_lt])
    (by norm_num [TpcClusterMover.get_circle_circle_intersection,
          TpcClusterMover.circle_circle_intersection, sqrt30, abs_lt])
  rw [e] at h
  norm_num [sqrt30] at h
  exact h

lemma moveCluster_key (sqrt : ℚ → ℚ) (R X0 Y0 A B : ℚ) (p b : ℕ × V3)
    (h : TpcClusterMover.moveCluster sqrt R X0 Y0 A B p = some b) : b.1 = p.1 := by
  simp only [TpcClusterMover.moveCluster] at h
  rcases h1 : TpcClusterMover.get_circle_circle_intersection sqrt
      (TpcClusterMover.layer_radius.getD (TrkrDefs.getLayer p.1 - 7) 0)
      R X0 Y0 p.2.x p.2.y with _ | ⟨xp, yp⟩ <;> rw [h1] at h
  · exact absurd h (by simp)
  · rcases h2 : TpcClusterMover.get_circle_circle_intersection sqrt
        (sqrt (p.2.x ^ 2 + p.2.y ^ 2)) R X0 Y0 p.2.x p.2.y with _ | ⟨xs, ys⟩ <;>
      rw [h2] at h
    · exact absurd h (by simp)
    · simp only [Option.some.injEq] at h
      rw [← h]

lemma filterMap_eq_of_erase_none {α β : Type} [BEq α] [LawfulBEq α] (f : α → Option β)
    (a : α) (ha : f a = none) :
    ∀ l : List α, a ∈ l → l.filterMap f = (l.erase a).filterMap f := by
  intro l
  induction l with
  | nil => intro h; cases h
  | cons b t ih =>
    intro hmem
    by_cases hba : b = a
    · subst hba
      rw [List.erase_cons_head, List.filterMap_cons, ha]
    · have hat : a ∈ t := by
        rcases List.mem_cons.mp hmem with h | h
        · exact absurd h.symm hba
        · exact h
      rw [List.erase_cons_tail (by simpa using hba), List.filterMap_cons,
        List.filterMap_cons, ih hat]

/-- C4: on a track with at least 3 TPC clusters, if the circle-circle
intersection fails for a given TPC cluster at the target layer radius or at
the cluster's own radius, that cluster is absent from the returned list (its
key appears with no position at all), while the track is still processed: the
output is exactly the unchanged non-TPC clusters followed by the projections
of the remaining TPC clusters. -/
theorem C4_failed_intersection_drops_cluster
    (fitC : List V3 → ℚ × ℚ × ℚ) (fitL : List V3 → ℚ × ℚ) (sqrt : ℚ → ℚ)
    (global_in : List (ℕ × V3)) (R X0 Y0 A B : ℚ) (p : ℕ × V3)
    (h3 : ¬ (TpcClusterMover.tpcClusters global_in).length < 3)
    (hmem : p ∈ TpcClusterMover.tpcClusters global_in)
    (hkey : ∀ q ∈ global_in, q.1 = p.1 → q = p)
    (hfc : fitC ((TpcClusterMover.tpcClusters global_in).map Prod.snd) = (R, X0, Y0))
    (hfl : fitL ((TpcClusterMover.tpcClusters global_in).map Prod.snd) = (A, B))
    (hfail : TpcClusterMover.get_circle_circle_intersection sqrt
        (TpcClusterMover.layer_radius.getD (TrkrDefs.getLayer p.1 - 7) 0)
        R X0 Y0 p.2.x p.2.y = none ∨
      TpcClusterMover.get_circle_circle_intersection sqrt
        (sqrt (p.2.x ^ 2 + p.2.y ^ 2)) R X0 Y0 p.2.x p.2.y = none) :
    (∀ v : V3, (p.1, v) ∉ TpcClusterMover.processTrack fitC fitL sqrt global_in) ∧
    TpcClusterMover.processTrack fitC fitL sqrt global_in =
      TpcClusterMover.siClusters global_in ++
        ((TpcClusterMover.tpcClusters global_in).erase p).filterMap
          (TpcClusterMover.moveCluster sqrt R X0 Y0 A B) := by
  have hmove : TpcClusterMover.moveCluster sqrt R X0 Y0 A B p = none := by
    simp only [TpcClusterMover.moveCluster]
    rcases hfail with hf | hf
    · rw [hf]
    · rcases h1 : TpcClusterMover.get_circle_circle_intersection sqrt
          (TpcClusterMover.layer_radius.getD (TrkrDefs.getLayer p.1 - 7) 0)
          R X0 Y0 p.2.x p.2.y with _ | ⟨xp, yp⟩
      · rfl
      · rw [hf]
  have hptpc : TrkrDefs.getTrkrId p.1 = TrkrDefs.tpcId := by
    have := List.mem_filter.mp hmem
    simpa using this.2
  have hout : TpcClusterMover.processTrack fitC fitL sqrt global_in =
      TpcClusterMover.siClusters global_in ++
        (TpcClusterMover.tpcClusters global_in).filterMap
          (TpcClusterMover.moveCluster sqrt R X0 Y0 A B) := by
    simp only [TpcClusterMover.processTrack]
    rw [if_neg h3, hfc, hfl]
  constructor
  · intro v hv
    rw [hout] at hv
    rcases List.mem_append.mp hv with hv | hv
    · have h1 := List.mem_filter.mp hv
      have h2 : ((p.1, v) : ℕ × V3) = p := hkey _ h1.1 rfl
      have h3' : TrkrDefs.getTrkrId (p.1, v).1 ≠ TrkrDefs.tpcId := by simpa using h1.2
      rw [h2] at h3'
      exact h3' hptpc
    · obtain ⟨a, hamem, haeq⟩ := List.mem_filterMap.mp hv
      have hak : a.1 = p.1 := (moveCluster_key _ _ _ _ _ _ _ _ haeq).symm
      have hap : a = p := hkey a (List.mem_filter.mp hamem).1 hak
      rw [hap, hmove] at haeq
      cases haeq
  · rw [hout,
      filterMap_eq_of_erase_none (TpcClusterMover.moveCluster sqrt R X0 Y0 A B)
        p hmove _ hmem]


/-- Witness for C4: with a small fitted circle the intersection at the readout
layer radius fails and the first cluster's key is absent from the output. -/
theorem C4_witness :
    (tpcKey 7, (⟨0, 0, 0⟩ : V3)) ∉
      TpcClusterMover.processTrack fitC1 fitL0 sqrt30
        [(tpcKey 7, ⟨15, 0, 10⟩), (tpcKey 8, ⟨1, 2, 3⟩), (tpcKey 9, ⟨4, 5, 6⟩)] := by
  have e0 : TrkrDefs.getLayer (tpcKey 7) - 7 = 0 := by decide
  have e : TpcClusterMover.layer_radius.getD (TrkrDefs.getLayer (tpcKey 7) - 7) 0 =
      485 / 16 := by
    rw [e0, layer_radius_inner 0 (by omega)]
    norm_num
  exact (C4_failed_intersection_drops_cluster fitC1 fitL0 sqrt30
    [(tpcKey 7, ⟨15, 0, 10⟩), (tpcKey 8, ⟨1, 2, 3⟩), (tpcKey 9, ⟨4, 5, 6⟩)]
    1 1 0 0 0 (tpcKey 7, ⟨15, 0, 10⟩)
    (by decide) (by decide) (by decide) rfl rfl
    (Or.inl (by
      rw [e]
      norm_num [TpcClusterMover.get_circle_circle_intersection,
        TpcClusterMover.circle_circle_intersection, sqrt30]))).1 ⟨0, 0, 0⟩

lemma sensor_indices_eq (atan2 : ℚ → ℚ → ℚ) (M_PI : ℚ)
    (g : CylinderGeom_Mvtx) (world : V3) (s c : ℤ)
    (hsdef : s = CylinderGeom_Mvtx.cppRound
      (((if atan2 world.y world.x < 0 then atan2 world.y world.x + 2 * M_PI
          else atan2 world.y world.x) - g.stave_phi_0) / g.stave_phi_step))
    (hcdef : c = CylinderGeom_Mvtx.cppRound (world.z /
        (((CylinderGeom_Mvtx.inner_loc_chip_in_module.getD 8 default).z -
          (CylinderGeom_Mvtx.inner_loc_chip_in_module.getD 0 default).z) / 8)) + 4) :
    CylinderGeom_Mvtx.get_sensor_indices_from_world_coords atan2 M_PI g world =
      (CylinderGeom_Mvtx.toUnsigned s, CylinderGeom_Mvtx.toUnsigned c) := by
  simp only [CylinderGeom_Mvtx.get_sensor_indices_from_world_coords]
  rw [← hsdef, ← hcdef]

/-- C7: for every world point, the sensor indices are computed from
phi = atan2(y, x) normalized into [0, 2π) by adding 2π when negative, as
stave_index = round((phi − stave_phi_0) / stave_phi_step) and
chip_index = round(z / chip_pitch_z) + 4 with
chip_pitch_z = (chip_positions_in_module[8].z − chip_positions_in_module[0].z) / 8,
with no clamping of either index to the physical range: whenever the two
rounded values are representable as unsigned ints they are returned verbatim,
however large. -/
theorem C7_sensor_indices_formula (atan2 : ℚ → ℚ → ℚ) (M_PI : ℚ)
    (g : CylinderGeom_Mvtx) (world : V3) (s c : ℤ)
    (hsdef : s = CylinderGeom_Mvtx.cppRound
      (((if atan2 world.y world.x < 0 then atan2 world.y world.x + 2 * M_PI
          else atan2 world.y world.x) - g.stave_phi_0) / g.stave_phi_step))
    (hcdef : c = CylinderGeom_Mvtx.cppRound (world.z /
        (((CylinderGeom_Mvtx.inner_loc_chip_in_module.getD 8 default).z -
          (CylinderGeom_Mvtx.inner_loc_chip_in_module.getD 0 default).z) / 8)) + 4)
    (hs0 : 0 ≤ s) (hs32 : s < 2 ^ 32) (hc0 : 0 ≤ c) (hc32 : c < 2 ^ 32) :
    CylinderGeom_Mvtx.get_sensor_indices_from_world_coords atan2 M_PI g world =
      (s.toNat, c.toNat) := by
  rw [sensor_indices_eq atan2 M_PI g world s c hsdef hcdef]
  unfold CylinderGeom_Mvtx.toUnsigned
  rw [Int.emod_eq_of_lt hs0 hs32, Int.emod_eq_of_lt hc0 hc32]

/-- Witness for C7 at a concrete geometry and world point where the rounds are
2 and 6. -/
theorem C7_witness :
    CylinderGeom_Mvtx.get_sensor_indices_from_world_coords atan2pos 0 g0
      ⟨3, 4, 6.03⟩ = (2, 6) := by
  have h := C7_sensor_indices_formula atan2pos 0 g0 ⟨3, 4, 6.03⟩ 2 6
    (by norm_num [atan2pos, g0, CylinderGeom_Mvtx.cppRound,
      CylinderGeom_Mvtx.inner_loc_chip_in_module])
    (by norm_num [CylinderGeom_Mvtx.cppRound,
      CylinderGeom_Mvtx.inner_loc_chip_in_module])
    (by norm_num) (by norm_num) (by norm_num) (by norm_num)
  simpa using h

/-- C10: because the indices are computed as signed ints but written into
unsigned int outputs, a negative rounded stave (resp. chip) value is returned
reduced modulo 2^32: for −2^32 ≤ v < 0 the output is v + 2^32 (so −1 becomes
4294967295), not a negative value. -/
theorem C10_negative_index_wraps (atan2 : ℚ → ℚ → ℚ) (M_PI : ℚ)
    (g : CylinderGeom_Mvtx) (world : V3) (s c : ℤ)
    (hsdef : s = CylinderGeom_Mvtx.cppRound
      (((if atan2 world.y world.x < 0 then atan2 world.y world.x + 2 * M_PI
          else atan2 world.y world.x) - g.stave_phi_0) / g.stave_phi_step))
    (hcdef : c = CylinderGeom_Mvtx.cppRound (world.z /
        (((CylinderGeom_Mvtx.inner_loc_chip_in_module.getD 8 default).z -
          (CylinderGeom_Mvtx.inner_loc_chip_in_module.getD 0 default).z) / 8)) + 4) :
    (s < 0 → -2 ^ 32 ≤ s →
      (CylinderGeom_Mvtx.get_sensor_indices_from_world_coords atan2 M_PI g world).1 =
        (s + 2 ^ 32).toNat) ∧
    (c < 0 → -2 ^ 32 ≤ c →
      (CylinderGeom_Mvtx.get_sensor_indices_from_world_coords atan2 M_PI g world).2 =
        (c + 2 ^ 32).toNat) := by
  rw [sensor_indices_eq atan2 M_PI g world s c hsdef hcdef]
  unfold CylinderGeom_Mvtx.toUnsigned
  constructor
  · intro h1 h2
    omega
  · intro h1 h2
    omega

/-- Witness for C10: rounded stave value −1 is returned as 4294967295 and
rounded chip value −6 as 4294967290. -/
theorem C10_witness :
    (CylinderGeom_Mvtx.get_sensor_indices_from_world_coords atan2neg (1 / 2) g10
      ⟨3, 4, -30.15⟩).1 = 4294967295 ∧
    (CylinderGeom_Mvtx.get_sensor_indices_from_world_coords atan2neg (1 / 2) g10
      ⟨3, 4, -30.15⟩).2 = 4294967290 := by
  have h := C10_negative_index_wraps atan2neg (1 / 2) g10 ⟨3, 4, -30.15⟩ (-1) (-6)
    (by norm_num [atan2neg, g10, CylinderGeom_Mvtx.cppRound,
      CylinderGeom_Mvtx.inner_loc_chip_in_module])
    (by norm_num [CylinderGeom_Mvtx.cppRound,
      CylinderGeom_Mvtx.inner_loc_chip_in_module])
  refine ⟨?_, ?_⟩
  · rw [h.1 (by norm_num) (by norm_num)]
    rfl
  · rw [h.2 (by norm_num) (by norm_num)]
    rfl

/-- C9: the linear pixel index convention idx = row + col·n_rows with inverse
row = idx % n_rows and col = idx / n_rows is a round trip in both directions
and hence a bijection between pairs (row, col) with row < n_rows, col < n_cols
and indices in [0, n_rows·n_cols). -/
theorem C9_linear_index_bijection :
    (∀ NX NZ row col : ℤ, 0 < NX → 0 ≤ row → row < NX → 0 ≤ col → col < NZ →
      CylinderGeom_Mvtx.get_pixel_X_from_pixel_number NX
          (CylinderGeom_Mvtx.get_pixel_number_from_xbin_zbin NX row col) = row ∧
      CylinderGeom_Mvtx.get_pixel_Z_from_pixel_number NX
          (CylinderGeom_Mvtx.get_pixel_number_from_xbin_zbin NX row col) = col ∧
      0 ≤ CylinderGeom_Mvtx.get_pixel_number_from_xbin_zbin NX row col ∧
      CylinderGeom_Mvtx.get_pixel_number_from_xbin_zbin NX row col < NX * NZ) ∧
    (∀ NX NZ idx : ℤ, 0 < NX → 0 ≤ idx → idx < NX * NZ →
      0 ≤ CylinderGeom_Mvtx.get_pixel_X_from_pixel_number NX idx ∧
      CylinderGeom_Mvtx.get_pixel_X_from_pixel_number NX idx < NX ∧
      0 ≤ CylinderGeom_Mvtx.get_pixel_Z_from_pixel_number NX idx ∧
      CylinderGeom_Mvtx.get_pixel_Z_from_pixel_number NX idx < NZ ∧
      CylinderGeom_Mvtx.get_pixel_number_from_xbin_zbin NX
        (CylinderGeom_Mvtx.get_pixel_X_from_pixel_number NX idx)
        (CylinderGeom_Mvtx.get_pixel_Z_from_pixel_number NX idx) = idx) := by
  constructor
  · intro NX NZ row col hNX hr0 hrN hc0 hcN
    unfold CylinderGeom_Mvtx.get_pixel_X_from_pixel_number
      CylinderGeom_Mvtx.get_pixel_Z_from_pixel_number
      CylinderGeom_Mvtx.get_pixel_number_from_xbin_zbin
    have hidx0 : 0 ≤ row + col * NX := by positivity
    rw [Int.tmod_eq_emod hidx0 (le_of_lt hNX),
      Int.tdiv_eq_ediv hidx0 (le_of_lt hNX)]
    refine ⟨?_, ?_, hidx0, ?_⟩
    · rw [Int.add_mul_emod_self, Int.emod_eq_of_lt hr0 hrN]
    · rw [Int.add_mul_ediv_right _ _ (ne_of_gt hNX),
        Int.ediv_eq_zero_of_lt hr0 hrN, zero_add]
    · nlinarith
  · intro NX NZ idx hNX hi0 hiNZ
    unfold CylinderGeom_Mvtx.get_pixel_X_from_pixel_number
      CylinderGeom_Mvtx.get_pixel_Z_from_pixel_number
      CylinderGeom_Mvtx.get_pixel_number_from_xbin_zbin
    rw [Int.tmod_eq_emod hi0 (le_of_lt hNX), Int.tdiv_eq_ediv hi0 (le_of_lt hNX)]
    refine ⟨Int.emod_nonneg idx (ne_of_gt hNX), Int.emod_lt_of_pos idx hNX,
      Int.ediv_nonneg hi0 (le_of_lt hNX), ?_, ?_⟩
    · rw [Int.ediv_lt_iff_lt_mul hNX]
      nlinarith
    · rw [Int.emod_add_ediv' idx NX]

/-- Witness for C9 at n_rows = 1024, n_cols = 512, (row, col) = (5, 7) and
idx = 7173. -/
theorem C9_witness :
    (CylinderGeom_Mvtx.get_pixel_X_from_pixel_number 1024
        (CylinderGeom_Mvtx.get_pixel_number_from_xbin_zbin 1024 5 7) = 5 ∧
      CylinderGeom_Mvtx.get_pixel_Z_from_pixel_number 1024
        (CylinderGeom_Mvtx.get_pixel_number_from_xbin_zbin 1024 5 7) = 7 ∧
      0 ≤ CylinderGeom_Mvtx.get_pixel_number_from_xbin_zbin 1024 5 7 ∧
      CylinderGeom_Mvtx.get_pixel_number_from_xbin_zbin 1024 5 7 < 1024 * 512) ∧
    CylinderGeom_Mvtx.get_pixel_number_from_xbin_zbin 1024
      (CylinderGeom_Mvtx.get_pixel_X_from_pixel_number 1024 7173)
      (CylinderGeom_Mvtx.get_pixel_Z_from_pixel_number 1024 7173) = 7173 :=
  ⟨C9_linear_index_bijection.1 1024 512 5 7 (by decide) (by decide) (by decide)
      (by decide) (by decide),
    (C9_linear_index_bijection.2 1024 512 7173 (by decide) (by decide)
      (by decide)).2.2.2.2⟩

lemma snap_no_resnap (half v : ℚ) (hh : CylinderGeom_Mvtx.EPS ≤ half) :
    ¬ |(|(if v < 0 then (-1 : ℚ) else 1) * (half - CylinderGeom_Mvtx.EPS)| - half)| <
      CylinderGeom_Mvtx.EPS := by
  have he : (0 : ℚ) < CylinderGeom_Mvtx.EPS := by norm_num [CylinderGeom_Mvtx.EPS]
  have habs : |(if v < 0 then (-1 : ℚ) else 1) * (half - CylinderGeom_Mvtx.EPS)| =
      half - CylinderGeom_Mvtx.EPS := by
    split_ifs
    · rw [neg_one_mul, abs_neg, abs_of_nonneg (by linarith)]
    · rw [one_mul, abs_of_nonneg (by linarith)]
  rw [habs, show half - CylinderGeom_Mvtx.EPS - half = -CylinderGeom_Mvtx.EPS by ring,
    abs_neg, abs_of_nonneg (le_of_lt he)]
  exact lt_irrefl _

/-- C8: a sensor-local point whose |x| is within 5e-6 cm of half the
active-matrix row size (resp. whose |z| is within 5e-6 cm of half the column
size) maps to the same pixel result as the point with that coordinate replaced
by the sign-preserving clamp to the half-size minus 5e-6; in particular a
point just outside the boundary maps like a point at the boundary. -/
theorem C8_edge_snap_equivalence :
    (∀ (seg : CylinderGeom_Mvtx.SegmentationAlpideModel) (p : V3),
      CylinderGeom_Mvtx.EPS ≤ seg.ActiveMatrixSizeRows / 2 →
      |(|p.x| - seg.ActiveMatrixSizeRows / 2)| < CylinderGeom_Mvtx.EPS →
      CylinderGeom_Mvtx.get_pixel_from_local_coords seg p =
        CylinderGeom_Mvtx.get_pixel_from_local_coords seg
          ⟨(if p.x < 0 then -1 else 1) *
            (seg.ActiveMatrixSizeRows / 2 - CylinderGeom_Mvtx.EPS), p.y, p.z⟩) ∧
    (∀ (seg : CylinderGeom_Mvtx.SegmentationAlpideModel) (p : V3),
      CylinderGeom_Mvtx.EPS ≤ seg.ActiveMatrixSizeCols / 2 →
      |(|p.z| - seg.ActiveMatrixSizeCols / 2)| < CylinderGeom_Mvtx.EPS →
      CylinderGeom_Mvtx.get_pixel_from_local_coords seg p =
        CylinderGeom_Mvtx.get_pixel_from_local_coords seg
          ⟨p.x, p.y, (if p.z < 0 then -1 else 1) *
            (seg.ActiveMatrixSizeCols / 2 - CylinderGeom_Mvtx.EPS)⟩) := by
  constructor
  · intro seg p hh hx
    simp only [CylinderGeom_Mvtx.get_pixel_from_local_coords]
    rw [if_pos hx, if_neg (snap_no_resnap (seg.ActiveMatrixSizeRows / 2) p.x hh)]
  · intro seg p hh hz
    simp only [CylinderGeom_Mvtx.get_pixel_from_local_coords]
    rw [if_pos hz, if_neg (snap_no_resnap (seg.ActiveMatrixSizeCols / 2) p.z hh)]

/-- Witness for C8: the point 1e-6 outside the active-matrix row boundary of a
concrete segmentation maps to the same pixel as the point exactly at the
boundary. -/
theorem C8_witness :
    CylinderGeom_Mvtx.get_pixel_from_local_coords seg0 ⟨0.600001, 0.1, 0⟩ =
      CylinderGeom_Mvtx.get_pixel_from_local_coords seg0 ⟨0.6, 0.1, 0⟩ := by
  have h1 := C8_edge_snap_equivalence.1 seg0 ⟨0.600001, 0.1, 0⟩
    (by norm_num [CylinderGeom_Mvtx.EPS, seg0])
    (by norm_num [CylinderGeom_Mvtx.EPS, seg0, abs_lt, abs_of_nonneg])
  have h2 := C8_edge_snap_equivalence.1 seg0 ⟨0.6, 0.1, 0⟩
    (by norm_num [CylinderGeom_Mvtx.EPS, seg0])
    (by norm_num [CylinderGeom_Mvtx.EPS, seg0, abs_lt, abs_of_nonneg])
  rw [h1, h2]
  norm_num
